import Mathlib

/-!
Verification of the booking/availability/commission/rating core of the
`dogwalker` pet-care marketplace (Django app `marketplace`).

Shallow embedding conventions:
* Datetimes are minutes since an epoch (`ℕ`); a day has 1440 minutes and the
  epoch day has weekday 0, matching Python's Monday-0 convention up to a
  choice of epoch.  `date_of`, `time_of_day` and `weekday` are the embeddings
  of `.date()`, `.time()` and `.weekday()`.
* Money is in integer cents (`ℤ`): the models use `DecimalField(decimal_places=2)`
  throughout, so every stored amount is a whole number of cents.
  `Decimal.quantize(Decimal('0.01'))` (banker's rounding, the `decimal`
  module default) becomes `round_half_even`, rounding a fraction `n / d`
  to a whole number.
* `rating_average` (a 2-decimal `DecimalField`) is held in hundredths (`ℤ`).
* Django's `Avg` over the integer rating column has `FloatField` output, so
  `recalc_ratings` sees the mean through a binary64 `float` before
  quantizing; `float_of_mean` models that coercion exactly (round to
  nearest, ties to even, 53-bit significand).
* Database state is an explicit `DB` record of rows; a Django queryset
  filter/exists becomes `List.filter` / `List.any`, `get`/`find` becomes
  `List.find?`.  A raised `ValidationError` / `ValueError` becomes an
  `Except.error`; every mutating operation returns the result together with
  the post-state, and a raise happens before any write, so the post-state on
  error is the input state (Django rolls the transaction back).
-/

namespace Dogwalker

/-- Round the fraction `n / d` (with `d > 0` in all uses) to the nearest
integer, ties to even: the embedding of `Decimal.quantize` with the default
`ROUND_HALF_EVEN` mode, after scaling so that the rounding unit is 1. -/
def round_half_even (n : ℤ) (d : ℕ) : ℤ :=
  if 2 * Int.emod n d < d then Int.ediv n d
  else if (d : ℤ) < 2 * Int.emod n d then Int.ediv n d + 1
  else if Int.ediv n d % 2 = 0 then Int.ediv n d else Int.ediv n d + 1

lemma round_half_even_zero (d : ℕ) : round_half_even 0 d = 0 := by
  rcases Nat.eq_zero_or_pos d with h | h
  · subst h; decide
  · have hd' : (0 : ℤ) < (d : ℤ) := by exact_mod_cast h
    have h1 : Int.emod 0 (d : ℤ) = 0 := Int.zero_emod _
    have h2 : Int.ediv 0 (d : ℤ) = 0 := Int.zero_ediv _
    simp [round_half_even, h1, h2, hd']

/-- Rounding `n / d` never exceeds an integer bound `m` that `n / d` itself
does not exceed. -/
lemma round_half_even_le {n : ℤ} {d : ℕ} {m : ℤ} (hd : 0 < d)
    (h : n ≤ (d : ℤ) * m) : round_half_even n d ≤ m := by
  have hd' : (0 : ℤ) < (d : ℤ) := by exact_mod_cast hd
  have hdm : (d : ℤ) * Int.ediv n d + Int.emod n d = n := Int.ediv_add_emod n d
  have hr0 : 0 ≤ Int.emod n (d : ℤ) := Int.emod_nonneg n (ne_of_gt hd')
  have hq : Int.ediv n (d : ℤ) ≤ m := by
    have h1 : (d : ℤ) * Int.ediv n (d : ℤ) ≤ (d : ℤ) * m := by linarith
    exact le_of_mul_le_mul_left h1 hd'
  have hqlt : 0 < Int.emod n (d : ℤ) → Int.ediv n (d : ℤ) < m := by
    intro hrpos
    have h1 : (d : ℤ) * Int.ediv n (d : ℤ) < (d : ℤ) * m := by linarith
    exact lt_of_mul_lt_mul_left h1 (le_of_lt hd')
  unfold round_half_even
  split
  · exact hq
  · next h2 =>
    split
    · next h3 =>
      have := hqlt (by omega)
      omega
    · next h3 =>
      split
      · exact hq
      · have := hqlt (by omega)
        omega

/-- The rounded value is within half a rounding unit of the exact fraction:
`|d * round(n/d) - n| * 2 ≤ d`. -/
lemma round_half_even_close {n : ℤ} {d : ℕ} (hd : 0 < d) :
    -(d : ℤ) ≤ 2 * ((d : ℤ) * round_half_even n d - n) ∧
      2 * ((d : ℤ) * round_half_even n d - n) ≤ d := by
  have hd' : (0 : ℤ) < (d : ℤ) := by exact_mod_cast hd
  have hdiv : (d : ℤ) * Int.ediv n d + Int.emod n d = n := Int.ediv_add_emod n d
  have hr0 : 0 ≤ Int.emod n (d : ℤ) := Int.emod_nonneg n (ne_of_gt hd')
  have hrlt : Int.emod n (d : ℤ) < (d : ℤ) := Int.emod_lt_of_pos n hd'
  unfold round_half_even
  split
  · constructor <;> nlinarith
  · split
    · constructor <;> nlinarith
    · split <;> constructor <;> nlinarith

/-- `compute_commission` (marketplace/models.py).  The platform fee percent
lives in `settings.PLATFORM_FEE_PERCENT`, which is configuration outside the
provided sources; it is threaded in explicitly as an exact fraction
`fee_num / fee_den` (the spec: a process-wide configured rate `P`).
`platform_fee = (amount * P).quantize('0.01')` in cents is the half-even
rounding of `amount * fee_num / fee_den`; the caregiver earns the rest. -/
def compute_commission (fee_num fee_den : ℕ) (amount : ℤ) : ℤ × ℤ :=
  let platform_fee := round_half_even (amount * fee_num) fee_den
  let caregiver_earnings := amount - platform_fee
  (platform_fee, caregiver_earnings)

/-- Booking.STATUS_CHOICES. -/
inductive BookingStatus
  | pending
  | accepted
  | rejected
  | cancelled
  | completed
deriving DecidableEq, Repr

/-- Booking.PAYMENT_STATUS_CHOICES. -/
inductive PaymentStatus
  | pending
  | paid
  | refunded
deriving DecidableEq, Repr

/-- TransactionLog.DIRECTIONS. -/
inductive Direction
  | credit
  | debit
deriving DecidableEq, Repr

/-- Reasons of the `ValidationError`s raised by BookingCreateSerializer and
ReviewSerializer (each is the stable message of one `raise`). -/
inductive ValidationReason
  | notOwner
  | petNotFound
  | caregiverNotFound
  | serviceTypeNotFound
  | serviceNotOffered
  | startInPast
  | durationExceedsMax
  | caregiverUnavailable
  | bookingNotFound
  | reviewNotCompleted
  | reviewAlreadyExists
deriving DecidableEq, Repr

/-- Errors of the core: the `ValueError` raised by `Booking.change_status`
(the spec's `InvalidTransitionError`), and serializer `ValidationError`s. -/
inductive MError
  | invalidTransition : BookingStatus → BookingStatus → MError
  | validation : ValidationReason → MError
deriving DecidableEq, Repr

deriving instance DecidableEq for Except

/-- CaregiverProfile: the fields this core reads or writes.  `rating_average`
is in hundredths (2-decimal fixed point). -/
structure CaregiverProfile where
  id : ℕ
  user : ℕ
  rating_average : ℤ
  rating_count : ℕ
deriving DecidableEq, Repr

/-- Pet (ownership link only). -/
structure Pet where
  id : ℕ
  owner : ℕ
deriving DecidableEq, Repr

/-- ServiceType (catalog entry; `code` as an opaque numeral). -/
structure ServiceType where
  code : ℕ
  base_duration_minutes : ℕ
deriving DecidableEq, Repr

/-- CaregiverService: caregiver × service type with a price (cents). -/
structure CaregiverService where
  caregiver : ℕ
  service_type : ℕ
  price_per_unit : ℤ
  is_active : Bool
deriving DecidableEq, Repr

/-- CaregiverAvailability: recurring weekly window, times in minutes. -/
structure CaregiverAvailability where
  caregiver : ℕ
  weekday : ℕ
  start_time : ℕ
  end_time : ℕ
  is_recurring : Bool
deriving DecidableEq, Repr

/-- TimeOff: date-range exception (dates as day numbers). -/
structure TimeOff where
  caregiver : ℕ
  date_from : ℕ
  date_to : ℕ
deriving DecidableEq, Repr

/-- Booking: the central entity; money fields in cents. -/
structure Booking where
  id : ℕ
  owner : ℕ
  caregiver : ℕ
  pet : ℕ
  service_type : ℕ
  start_datetime : ℕ
  end_datetime : ℕ
  duration_minutes : ℕ
  status : BookingStatus
  payment_status : PaymentStatus
  price_subtotal : ℤ
  platform_fee : ℤ
  caregiver_earnings : ℤ
deriving DecidableEq, Repr

/-- Review: 1:1 with a booking, targeting a caregiver. -/
structure Review where
  booking : ℕ
  author : ℕ
  target_caregiver : ℕ
  rating : ℕ
deriving DecidableEq, Repr

/-- TransactionLog row (the free-text `description` is omitted). -/
structure TransactionLog where
  booking : ℕ
  user : ℕ
  direction : Direction
  amount : ℤ
deriving DecidableEq, Repr

/-- The persisted state the core operates on.  `owners` holds the user ids
that own an OwnerProfile; `now` is the clock `timezone.now()` reads;
`fee_num / fee_den` is `settings.PLATFORM_FEE_PERCENT`. -/
structure DB where
  owners : List ℕ
  caregivers : List CaregiverProfile
  pets : List Pet
  service_types : List ServiceType
  caregiver_services : List CaregiverService
  availabilities : List CaregiverAvailability
  time_offs : List TimeOff
  bookings : List Booking
  reviews : List Review
  ledger : List TransactionLog
  now : ℕ
  fee_num : ℕ
  fee_den : ℕ
deriving DecidableEq, Repr

/-- Minute-of-day of a datetime (embeds `datetime.time()`). -/
def time_of_day (t : ℕ) : ℕ := t % 1440

/-- Day number of a datetime (embeds `datetime.date()`). -/
def date_of (t : ℕ) : ℕ := t / 1440

/-- Weekday 0–6 of a datetime (embeds `datetime.weekday()`). -/
def weekday (t : ℕ) : ℕ := t / 1440 % 7

/-- `is_caregiver_available` (marketplace/models.py): recurring weekly window
on the start day's weekday, then time-off date exclusion, then overlap against
pending/accepted bookings, each check via a queryset `exists()`. -/
def is_caregiver_available (db : DB) (caregiver : ℕ) (start endDt : ℕ) : Bool :=
  let wd := weekday start
  let time_range_ok := (db.availabilities.filter (fun a => a.caregiver == caregiver)).any
    (fun a => a.weekday == wd && decide (a.start_time ≤ time_of_day start)
      && decide (time_of_day endDt ≤ a.end_time))
  if !time_range_ok then false
  else if (db.time_offs.filter (fun t => t.caregiver == caregiver)).any
      (fun t => decide (t.date_from ≤ date_of start) && decide (date_of endDt ≤ t.date_to)) then
    false
  else
    let overlapping := (db.bookings.filter (fun b => b.caregiver == caregiver)).any
      (fun b => (decide (b.status = BookingStatus.pending)
          || decide (b.status = BookingStatus.accepted))
        && decide (b.start_datetime < endDt) && decide (start < b.end_datetime))
    !overlapping

/-- Booking.ALLOWED_TRANSITIONS (`dict.get(status, set())`). -/
def allowed_transitions : BookingStatus → List BookingStatus
  | .pending => [.accepted, .rejected, .cancelled]
  | .accepted => [.completed, .cancelled]
  | _ => []

/-- `Booking.change_status` (marketplace/models.py): raises `ValueError` on a
transition outside `ALLOWED_TRANSITIONS`, before any write; otherwise sets the
status and saves.  Returns the outcome and the post-state of the booking. -/
def change_status (b : Booking) (new_status : BookingStatus) :
    Except MError Unit × Booking :=
  if new_status ∈ allowed_transitions b.status then
    (Except.ok (), { b with status := new_status })
  else
    (Except.error (MError.invalidTransition b.status new_status), b)

/-- User id behind a caregiver profile (`self.caregiver.user`; the FK always
resolves in Django, `0` is a junk default for a dangling id). -/
def caregiver_user_id (db : DB) (caregiver : ℕ) : ℕ :=
  match db.caregivers.find? (fun c => c.id == caregiver) with
  | some c => c.user
  | none => 0

/-- `Booking.mark_paid` (marketplace/models.py), lifted to the database: a
no-op when the booking is already paid (or absent), otherwise it sets
`payment_status = paid` and appends one credit ledger row of
`caregiver_earnings` to the caregiver's user, in one transaction. -/
def mark_paid (db : DB) (bid : ℕ) : DB :=
  match db.bookings.find? (fun b => b.id == bid) with
  | none => db
  | some b =>
    if b.payment_status = PaymentStatus.paid then db
    else
      { db with
        bookings := db.bookings.map
          (fun x => if x.id == bid then { x with payment_status := PaymentStatus.paid } else x),
        ledger := db.ledger ++
          [⟨bid, caregiver_user_id db b.caregiver, Direction.credit, b.caregiver_earnings⟩] }

/-- Overwrite the status of a booking row directly (bypassing the state
machine); used to express that `mark_paid` never inspects `status`. -/
def set_booking_status (db : DB) (bid : ℕ) (s : BookingStatus) : DB :=
  { db with
    bookings := db.bookings.map (fun x => if x.id == bid then { x with status := s } else x) }

/-- Floor of log₂ on naturals by fuelled structural recursion, so that the
kernel can evaluate it; with fuel ≥ n, `log2_fuel fuel n = ⌊log₂ n⌋` for
`n ≥ 1`. -/
def log2_fuel : ℕ → ℕ → ℕ
  | 0, _ => 0
  | fuel + 1, n => if 2 ≤ n then log2_fuel fuel (n / 2) + 1 else 0

/-- `⌊log₂ n⌋` for `n ≥ 1` (0 at 0). -/
def nat_log2 (n : ℕ) : ℕ := log2_fuel n n

/-- `⌊log₂ (s / cnt)⌋` of a positive fraction: the binary exponent of its
binary64 representation in the normal range.  For `s < cnt` this is the
negated least `m` with `s·2^m ≥ cnt`, i.e. `-⌈log₂ ⌈cnt/s⌉⌉`. -/
def exp2_floor (s cnt : ℕ) : ℤ :=
  if cnt ≤ s then (nat_log2 (s / cnt) : ℤ)
  else -((nat_log2 ((cnt + s - 1) / s - 1) + 1 : ℕ) : ℤ)

/-- The IEEE-754 binary64 double nearest to `s / cnt` (round to nearest,
ties to even, 53-bit significand), returned as the exact fraction
`num / den` (with `den` a power of two) that the double denotes.  This is
the `float` Django's `Avg` over the integer rating column (`FloatField`
output) hands back for the exact SQL average `s / cnt`.  Subnormal and
overflow regimes of binary64 are not modelled: review ratings are 1…5, so
every reachable mean lies in `[1, 5]`. -/
def float_of_mean (s cnt : ℕ) : ℤ × ℕ :=
  let e := exp2_floor s cnt
  let k : ℤ := 52 - e
  let m : ℤ :=
    if 0 ≤ k then round_half_even ((s : ℤ) * 2 ^ k.toNat) cnt
    else round_half_even (s : ℤ) (cnt * 2 ^ (-k).toNat)
  if 0 ≤ k then (m, 2 ^ k.toNat) else (m * 2 ^ (-k).toNat, 1)

/-- `Decimal(float_avg).quantize(Decimal('0.01'))` in hundredths: the mean
`s / cnt` is first coerced to the nearest binary64 double, and that double's
exact value is then quantized half-even to 2 decimals.  At decimal ties that
are not binary-representable this differs from rounding the exact mean:
`107 / 40 = 2.675` coerces to the double `2.67499999999999982…`, which
quantizes to `2.67`, not `2.68`. -/
def quantized_float_mean (s cnt : ℕ) : ℤ :=
  round_half_even (100 * (float_of_mean s cnt).1) (float_of_mean s cnt).2

/-- `CaregiverProfile.recalc_ratings` (marketplace/models.py): aggregates
`Coalesce(Avg(rating), 0)` / `Coalesce(Count(id), 0)` over the reviews
targeting the caregiver.  `Avg` over the integer `rating` column has
`FloatField` output, so the exact average reaches Python as a binary64
`float`; the stored `rating_average` is
`Decimal(float_avg).quantize(Decimal('0.01'))` when the average is truthy
and `0.00` when it is falsy (no reviews, or an all-zero sum), and
`rating_count` is the exact count.  Both fields are saved on the profile. -/
def recalc_ratings (db : DB) (caregiver : ℕ) : DB :=
  let rs := db.reviews.filter (fun r => r.target_caregiver == caregiver)
  let cnt := rs.length
  let s : ℕ := (rs.map (fun r => r.rating)).sum
  let avg : ℤ := if s = 0 then 0 else quantized_float_mean s cnt
  { db with
    caregivers := db.caregivers.map
      (fun c =>
        if c.id == caregiver then { c with rating_average := avg, rating_count := cnt }
        else c) }

/-- The ratings of all reviews targeting a caregiver. -/
def ratings_of (db : DB) (caregiver : ℕ) : List ℕ :=
  (db.reviews.filter (fun r => r.target_caregiver == caregiver)).map (fun r => r.rating)

/-- The spec's rating aggregate, stated from its words: the arithmetic mean
of the ratings rounded to 2 decimal places (in hundredths, banker's
rounding), defaulting to `0.00` when no reviews exist. -/
def rounded_mean (l : List ℕ) : ℤ :=
  if l.length = 0 then 0 else round_half_even (100 * (l.sum : ℤ)) l.length

/-- The value `recalc_ratings` stores, as a function of the target's rating
list: the 2-decimal quantization of the float-coerced mean, `0.00` with an
empty (or all-zero) list. -/
def recomputed_average (l : List ℕ) : ℤ :=
  if l.sum = 0 then 0 else quantized_float_mean l.sum l.length

/-- `Review.save` (marketplace/models.py): persists the row (insert when the
instance is new, else update in place, keyed on the 1:1 booking), then runs
`recalc_ratings` on the target — but only when the row is new. -/
def review_save (db : DB) (r : Review) (is_new : Bool) : DB :=
  let db1 :=
    if is_new then { db with reviews := db.reviews ++ [r] }
    else { db with reviews := db.reviews.map (fun x => if x.booking == r.booking then r else x) }
  if is_new then recalc_ratings db1 r.target_caregiver else db1

/-- `ReviewSerializer.validate` + `create` (marketplace/serializers.py):
resolve the booking, require `status == completed`, require that no review
exists for the booking, set `target_caregiver := booking.caregiver`, then
save the new Review (triggering the rating recompute).  Raises happen before
any write, so the post-state on error is the input state. -/
def create_review (db : DB) (booking author rating : ℕ) : Except MError Unit × DB :=
  match db.bookings.find? (fun b => b.id == booking) with
  | none => (Except.error (MError.validation ValidationReason.bookingNotFound), db)
  | some b =>
    if b.status ≠ BookingStatus.completed then
      (Except.error (MError.validation ValidationReason.reviewNotCompleted), db)
    else if db.reviews.any (fun r => r.booking == booking) then
      (Except.error (MError.validation ValidationReason.reviewAlreadyExists), db)
    else
      (Except.ok (), review_save db ⟨booking, author, b.caregiver, rating⟩ true)

/-- `BookingCreateSerializer.validate` + `create` (marketplace/serializers.py):
resolve the requester's OwnerProfile, the pet among the owner's pets, the
caregiver, the service type by code and the active CaregiverService; then
reject a start in the past, a duration over `4 × base_duration_minutes`, and
an unavailable caregiver; on success persist the booking in `pending` /
payment `pending` with `end = start + duration`, the caregiver's price and
the commission split.  (OwnerProfile ids are identified with their user ids,
a 1:1 link.)  Every raise happens before the write, so the post-state on
error is the input state. -/
def create_booking (db : DB) (user pet caregiver service_type_code : ℕ)
    (start_datetime duration_minutes new_id : ℕ) : Except MError Booking × DB :=
  if user ∈ db.owners then
    match (db.pets.filter (fun p => p.owner == user)).find? (fun p => p.id == pet) with
    | none => (Except.error (MError.validation ValidationReason.petNotFound), db)
    | some _ =>
      match db.caregivers.find? (fun c => c.id == caregiver) with
      | none => (Except.error (MError.validation ValidationReason.caregiverNotFound), db)
      | some _ =>
        match db.service_types.find? (fun st => st.code == service_type_code) with
        | none => (Except.error (MError.validation ValidationReason.serviceTypeNotFound), db)
        | some st =>
          match db.caregiver_services.find?
              (fun cs => cs.caregiver == caregiver && cs.service_type == service_type_code
                && cs.is_active) with
          | none => (Except.error (MError.validation ValidationReason.serviceNotOffered), db)
          | some cs =>
            if start_datetime < db.now then
              (Except.error (MError.validation ValidationReason.startInPast), db)
            else if st.base_duration_minutes * 4 < duration_minutes then
              (Except.error (MError.validation ValidationReason.durationExceedsMax), db)
            else if ¬ is_caregiver_available db caregiver start_datetime
                (start_datetime + duration_minutes) then
              (Except.error (MError.validation ValidationReason.caregiverUnavailable), db)
            else
              let fee_earn := compute_commission db.fee_num db.fee_den cs.price_per_unit
              let b : Booking :=
                { id := new_id, owner := user, caregiver := caregiver, pet := pet,
                  service_type := service_type_code, start_datetime := start_datetime,
                  end_datetime := start_datetime + duration_minutes,
                  duration_minutes := duration_minutes,
                  status := BookingStatus.pending, payment_status := PaymentStatus.pending,
                  price_subtotal := cs.price_per_unit, platform_fee := fee_earn.1,
                  caregiver_earnings := fee_earn.2 }
              (Except.ok b, { db with bookings := db.bookings ++ [b] })
  else (Except.error (MError.validation ValidationReason.notOwner), db)

/-- The three money fields of a booking, as one tuple. -/
def money_fields (b : Booking) : ℤ × ℤ × ℤ :=
  (b.price_subtotal, b.platform_fee, b.caregiver_earnings)

lemma find?_map_of_pred {α : Type} (l : List α) (p : α → Bool) (f : α → α)
    (hf : ∀ x, p (f x) = p x) : (l.map f).find? p = (l.find? p).map f := by
  induction l with
  | nil => rfl
  | cons a t ih =>
    cases h : p a with
    | true =>
      rw [List.map_cons, List.find?_cons_of_pos _ ((hf a).trans h),
        List.find?_cons_of_pos _ h, Option.map_some']
    | false =>
      rw [List.map_cons, List.find?_cons_of_neg _ (by rw [hf a]; exact h ▸ Bool.false_ne_true),
        List.find?_cons_of_neg _ (h ▸ Bool.false_ne_true), ih]

/-- A sample booking used by concrete witnesses. -/
def sample_booking : Booking :=
  { id := 1, owner := 1, caregiver := 2, pet := 3, service_type := 4,
    start_datetime := 10000, end_datetime := 10060, duration_minutes := 60,
    status := BookingStatus.pending, payment_status := PaymentStatus.pending,
    price_subtotal := 3000, platform_fee := 450, caregiver_earnings := 2550 }

/-- C1: `change_status(new_status)` succeeds exactly when `new_status` is in
the allowed set for the current status (pending → accepted/rejected/cancelled;
accepted → completed/cancelled; rejected, cancelled, completed allow
nothing); an allowed transition sets the status to `new_status`, a disallowed
one fails with the invalid-transition error and leaves the booking
unchanged. -/
theorem change_status_fsm (b : Booking) (new_status : BookingStatus) :
    ((∃ u, (change_status b new_status).1 = Except.ok u) ↔
      new_status ∈ allowed_transitions b.status)
    ∧ (new_status ∈ allowed_transitions b.status →
        change_status b new_status = (Except.ok (), { b with status := new_status }))
    ∧ (new_status ∉ allowed_transitions b.status →
        change_status b new_status =
          (Except.error (MError.invalidTransition b.status new_status), b))
    ∧ allowed_transitions BookingStatus.pending
        = [BookingStatus.accepted, BookingStatus.rejected, BookingStatus.cancelled]
    ∧ allowed_transitions BookingStatus.accepted
        = [BookingStatus.completed, BookingStatus.cancelled]
    ∧ allowed_transitions BookingStatus.rejected = []
    ∧ allowed_transitions BookingStatus.cancelled = []
    ∧ allowed_transitions BookingStatus.completed = [] := by
  refine ⟨?_, ?_, ?_, rfl, rfl, rfl, rfl, rfl⟩ <;>
    unfold change_status <;> split <;> simp_all

/-- Witness for C1: from `pending`, the transition to `accepted` succeeds and
sets the status, the transition to `completed` fails with the
invalid-transition error and leaves the booking as it was. -/
theorem change_status_fsm_witness :
    (BookingStatus.accepted ∈ allowed_transitions BookingStatus.pending
      ∧ change_status sample_booking BookingStatus.accepted
          = (Except.ok (), { sample_booking with status := BookingStatus.accepted }))
    ∧ (BookingStatus.completed ∉ allowed_transitions BookingStatus.pending
      ∧ change_status sample_booking BookingStatus.completed
          = (Except.error
              (MError.invalidTransition BookingStatus.pending BookingStatus.completed),
             sample_booking)) :=
  ⟨⟨by decide, (change_status_fsm sample_booking BookingStatus.accepted).2.1 (by decide)⟩,
   ⟨by decide, (change_status_fsm sample_booking BookingStatus.completed).2.2.1 (by decide)⟩⟩

/-- C3: for the configured rate `P = fee_num / fee_den` (a percent,
`0 ≤ P ≤ 1`) and every amount `a ≥ 0` in cents, `compute_commission` returns
`platform_fee` equal to `a·P` rounded to cents (half-even — the last two
conjuncts pin it within half a cent of the exact product), and
`caregiver_earnings = a - platform_fee`, so the two sum to `a` exactly and the
earnings are never negative; the function is pure by construction. -/
theorem compute_commission_spec (fee_num fee_den : ℕ) (a : ℤ)
    (hden : 0 < fee_den) (hle : fee_num ≤ fee_den) (ha : 0 ≤ a) :
    (compute_commission fee_num fee_den a).1 = round_half_even (a * fee_num) fee_den
    ∧ (compute_commission fee_num fee_den a).1 + (compute_commission fee_num fee_den a).2 = a
    ∧ 0 ≤ (compute_commission fee_num fee_den a).2
    ∧ -(fee_den : ℤ) ≤
        2 * ((fee_den : ℤ) * (compute_commission fee_num fee_den a).1 - a * fee_num)
    ∧ 2 * ((fee_den : ℤ) * (compute_commission fee_num fee_den a).1 - a * fee_num)
        ≤ fee_den := by
  have hfee : round_half_even (a * fee_num) fee_den ≤ a := by
    apply round_half_even_le hden
    rw [mul_comm ((fee_den : ℕ) : ℤ) a]
    exact mul_le_mul_of_nonneg_left (by exact_mod_cast hle) ha
  have hclose := round_half_even_close (n := a * fee_num) hden
  refine ⟨rfl, ?_, ?_, ?_, ?_⟩
  · show round_half_even (a * fee_num) fee_den + (a - round_half_even (a * fee_num) fee_den) = a
    omega
  · show 0 ≤ a - round_half_even (a * fee_num) fee_den
    omega
  · exact hclose.1
  · exact hclose.2

/-- Witness for C3: with `P = 15/100` and `a = 30.00` (3000 cents) the split
is `(4.50, 25.50)`, which sums back to `a` with non-negative earnings. -/
theorem compute_commission_spec_witness :
    compute_commission 15 100 3000 = (450, 2550)
    ∧ (compute_commission 15 100 3000).1 + (compute_commission 15 100 3000).2 = 3000
    ∧ 0 ≤ (compute_commission 15 100 3000).2 := by
  have h := compute_commission_spec 15 100 3000 (by norm_num) (by norm_num) (by norm_num)
  exact ⟨by decide, h.2.1, h.2.2.1⟩

lemma if_chain_bool (A B C : Bool) :
    (if !A then false else if B then false else !C) = (A && !B && !C) := by
  cases A <;> cases B <;> cases C <;> rfl

lemma avail_any_iff (db : DB) (caregiver start endDt : ℕ) :
    ((db.availabilities.filter (fun a => a.caregiver == caregiver)).any
      (fun a => a.weekday == weekday start && decide (a.start_time ≤ time_of_day start)
        && decide (time_of_day endDt ≤ a.end_time)) = true)
    ↔ ∃ a ∈ db.availabilities, a.caregiver = caregiver ∧ a.weekday = weekday start
        ∧ a.start_time ≤ time_of_day start ∧ time_of_day endDt ≤ a.end_time := by
  simp only [List.any_eq_true, List.mem_filter, Bool.and_eq_true, decide_eq_true_eq,
    beq_iff_eq]
  tauto

lemma timeoff_any_iff (db : DB) (caregiver start endDt : ℕ) :
    ((db.time_offs.filter (fun t => t.caregiver == caregiver)).any
      (fun t => decide (t.date_from ≤ date_of start) && decide (date_of endDt ≤ t.date_to))
        = true)
    ↔ ∃ t ∈ db.time_offs, t.caregiver = caregiver ∧ t.date_from ≤ date_of start
        ∧ date_of endDt ≤ t.date_to := by
  simp only [List.any_eq_true, List.mem_filter, Bool.and_eq_true, decide_eq_true_eq,
    beq_iff_eq]
  tauto

lemma overlap_any_iff (db : DB) (caregiver start endDt : ℕ) :
    ((db.bookings.filter (fun b => b.caregiver == caregiver)).any
      (fun b => (decide (b.status = BookingStatus.pending)
          || decide (b.status = BookingStatus.accepted))
        && decide (b.start_datetime < endDt) && decide (start < b.end_datetime)) = true)
    ↔ ∃ b ∈ db.bookings, b.caregiver = caregiver
        ∧ (b.status = BookingStatus.pending ∨ b.status = BookingStatus.accepted)
        ∧ b.start_datetime < endDt ∧ start < b.end_datetime := by
  simp only [List.any_eq_true, List.mem_filter, Bool.and_eq_true, Bool.or_eq_true,
    decide_eq_true_eq, beq_iff_eq]
  constructor
  · rintro ⟨b, ⟨hb, hc⟩, ⟨hs, h1⟩, h2⟩
    exact ⟨b, hb, hc, hs, h1, h2⟩
  · rintro ⟨b, hb, hc, hs, h1, h2⟩
    exact ⟨b, ⟨hb, hc⟩, ⟨hs, h1⟩, h2⟩

/-- C2: for every caregiver and window `start < end`, availability holds iff
(1) some weekly availability record of the caregiver matches `start`'s
weekday with `start_time ≤ start`'s time-of-day and `end`'s time-of-day
`≤ end_time` (inclusive, only the start day's weekday is consulted), and
(2) no time-off of the caregiver has `date_from ≤ start.date()` and
`date_to ≥ end.date()`, and (3) no booking of the caregiver in status
pending/accepted satisfies `existing.start < end ∧ existing.end > start`.
The embedding is a pure function whose definition performs the three checks
in this order, short-circuiting on the first failure. -/
theorem is_caregiver_available_spec (db : DB) (caregiver start endDt : ℕ)
    (h : start < endDt) :
    (is_caregiver_available db caregiver start endDt = true ↔
      ((∃ a ∈ db.availabilities, a.caregiver = caregiver ∧ a.weekday = weekday start
          ∧ a.start_time ≤ time_of_day start ∧ time_of_day endDt ≤ a.end_time)
        ∧ (¬ ∃ t ∈ db.time_offs, t.caregiver = caregiver ∧ t.date_from ≤ date_of start
            ∧ date_of endDt ≤ t.date_to)
        ∧ (¬ ∃ b ∈ db.bookings, b.caregiver = caregiver
            ∧ (b.status = BookingStatus.pending ∨ b.status = BookingStatus.accepted)
            ∧ b.start_datetime < endDt ∧ start < b.end_datetime))) := by
  have h1 := avail_any_iff db caregiver start endDt
  have h2 := timeoff_any_iff db caregiver start endDt
  have h3 := overlap_any_iff db caregiver start endDt
  simp only [is_caregiver_available]
  rw [if_chain_bool]
  simp only [Bool.and_eq_true, Bool.not_eq_true', ← Bool.not_eq_true]
  rw [h1, ← h2, ← h3]
  tauto

/-- A sample state used by concrete witnesses: owner user 1 with pet 3,
caregiver 2 (user 20) offering service 4 at 30.00, available Mondays
08:00–20:00, no time off, no bookings, clock at minute 10000,
fee percent 15/100. -/
def sample_db : DB :=
  { owners := [1],
    caregivers := [{ id := 2, user := 20, rating_average := 0, rating_count := 0 }],
    pets := [{ id := 3, owner := 1 }],
    service_types := [{ code := 4, base_duration_minutes := 60 }],
    caregiver_services :=
      [{ caregiver := 2, service_type := 4, price_per_unit := 3000, is_active := true }],
    availabilities :=
      [{ caregiver := 2, weekday := 0, start_time := 480, end_time := 1200,
         is_recurring := true }],
    time_offs := [],
    bookings := [],
    reviews := [],
    ledger := [],
    now := 10000, fee_num := 15, fee_den := 100 }

/-- Witness for C2: in `sample_db`, the window 10680–10740 (a Monday,
10:00–11:00) is available, and the three spec conditions hold there. -/
theorem is_caregiver_available_spec_witness :
    10680 < 10740
    ∧ is_caregiver_available sample_db 2 10680 10740 = true
    ∧ (∃ a ∈ sample_db.availabilities, a.caregiver = 2 ∧ a.weekday = weekday 10680
        ∧ a.start_time ≤ time_of_day 10680 ∧ time_of_day 10740 ≤ a.end_time) := by
  have h := (is_caregiver_available_spec sample_db 2 10680 10740 (by norm_num)).mpr
    (by decide)
  exact ⟨by norm_num, h, by decide⟩

lemma find?_mark (l : List Booking) (bid : ℕ) (b : Booking)
    (h : l.find? (fun x => x.id == bid) = some b) :
    (l.map (fun x =>
        if x.id == bid then { x with payment_status := PaymentStatus.paid } else x)).find?
      (fun x => x.id == bid) = some { b with payment_status := PaymentStatus.paid } := by
  rw [find?_map_of_pred l (fun x => x.id == bid)
      (fun x => if x.id == bid then { x with payment_status := PaymentStatus.paid } else x)
      (fun x => by by_cases hx : (x.id == bid) = true <;> simp [hx]), h]
  simp only [Option.map_some']
  rw [if_pos (List.find?_some h)]

lemma find?_setstatus (l : List Booking) (bid : ℕ) (s : BookingStatus) (b : Booking)
    (h : l.find? (fun x => x.id == bid) = some b) :
    (l.map (fun x => if x.id == bid then { x with status := s } else x)).find?
      (fun x => x.id == bid) = some { b with status := s } := by
  rw [find?_map_of_pred l (fun x => x.id == bid)
      (fun x => if x.id == bid then { x with status := s } else x)
      (fun x => by by_cases hx : (x.id == bid) = true <;> simp [hx]), h]
  simp only [Option.map_some']
  rw [if_pos (List.find?_some h)]

lemma mark_paid_nofind (db : DB) (bid : ℕ)
    (hf : db.bookings.find? (fun x => x.id == bid) = none) : mark_paid db bid = db := by
  unfold mark_paid
  rw [hf]

lemma mark_paid_noop (db : DB) (bid : ℕ) (b : Booking)
    (hf : db.bookings.find? (fun x => x.id == bid) = some b)
    (hp : b.payment_status = PaymentStatus.paid) : mark_paid db bid = db := by
  unfold mark_paid
  rw [hf]
  exact if_pos hp

lemma mark_paid_eq (db : DB) (bid : ℕ) (b : Booking)
    (hf : db.bookings.find? (fun x => x.id == bid) = some b)
    (hp : b.payment_status ≠ PaymentStatus.paid) :
    mark_paid db bid =
      { db with
        bookings := db.bookings.map (fun x =>
          if x.id == bid then { x with payment_status := PaymentStatus.paid } else x),
        ledger := db.ledger ++
          [⟨bid, caregiver_user_id db b.caregiver, Direction.credit,
            b.caregiver_earnings⟩] } := by
  unfold mark_paid
  rw [hf]
  exact if_neg hp

/-- C5: `mark_paid` is idempotent: a no-op when the booking is already paid,
and otherwise it marks the booking paid and appends exactly one credit ledger
entry of `caregiver_earnings` to the caregiver's user — so two (or more)
calls on the same booking leave exactly one new credit entry, not two.  (The
source wraps the dual write in `transaction.atomic`; in this sequential
embedding both writes are a single state update.) -/
theorem mark_paid_idempotent (db : DB) (bid : ℕ) :
    mark_paid (mark_paid db bid) bid = mark_paid db bid
    ∧ (∀ b, db.bookings.find? (fun x => x.id == bid) = some b →
        b.payment_status = PaymentStatus.paid → mark_paid db bid = db)
    ∧ (∀ b, db.bookings.find? (fun x => x.id == bid) = some b →
        b.payment_status ≠ PaymentStatus.paid →
          (mark_paid db bid).ledger = db.ledger ++
            [⟨bid, caregiver_user_id db b.caregiver, Direction.credit,
              b.caregiver_earnings⟩]
          ∧ (∃ b', (mark_paid db bid).bookings.find? (fun x => x.id == bid) = some b'
              ∧ b'.payment_status = PaymentStatus.paid)
          ∧ (mark_paid (mark_paid db bid) bid).ledger.length = db.ledger.length + 1) := by
  have hidem : mark_paid (mark_paid db bid) bid = mark_paid db bid := by
    cases hf : db.bookings.find? (fun x => x.id == bid) with
    | none =>
      rw [mark_paid_nofind db bid hf, mark_paid_nofind db bid hf]
    | some b =>
      by_cases hp : b.payment_status = PaymentStatus.paid
      · rw [mark_paid_noop db bid b hf hp, mark_paid_noop db bid b hf hp]
      · have he := mark_paid_eq db bid b hf hp
        have hf2 : (mark_paid db bid).bookings.find? (fun x => x.id == bid)
            = some { b with payment_status := PaymentStatus.paid } := by
          rw [he]
          exact find?_mark db.bookings bid b hf
        exact mark_paid_noop (mark_paid db bid) bid _ hf2 rfl
  refine ⟨hidem, fun b hf hp => mark_paid_noop db bid b hf hp, fun b hf hp => ?_⟩
  have he := mark_paid_eq db bid b hf hp
  refine ⟨by rw [he], ⟨{ b with payment_status := PaymentStatus.paid }, ?_, rfl⟩, ?_⟩
  · rw [he]
    exact find?_mark db.bookings bid b hf
  · rw [hidem, he]
    simp

/-- Witness for C5: in a state holding one unpaid copy of `sample_booking`,
one `mark_paid` appends the 25.50 credit to user 20 and a second call
changes nothing. -/
theorem mark_paid_idempotent_witness :
    ({ sample_db with bookings := [sample_booking] } : DB).bookings.find?
        (fun x => x.id == 1) = some sample_booking
    ∧ sample_booking.payment_status ≠ PaymentStatus.paid
    ∧ (mark_paid { sample_db with bookings := [sample_booking] } 1).ledger
        = [⟨1, 20, Direction.credit, 2550⟩]
    ∧ (mark_paid (mark_paid { sample_db with bookings := [sample_booking] } 1) 1).ledger.length
        = 1 := by
  have h := (mark_paid_idempotent { sample_db with bookings := [sample_booking] } 1).2.2
    sample_booking (by decide) (by decide)
  refine ⟨by decide, by decide, ?_, ?_⟩
  · rw [h.1]
    decide
  · rw [h.2.2]
    decide

/-- C10: `mark_paid` never inspects `Booking.status`: whatever status `s` the
booking row is given (pending, accepted, rejected, cancelled or completed),
an unpaid booking is still marked paid and still credits the caregiver's user
with `caregiver_earnings`. -/
theorem mark_paid_ignores_status (db : DB) (bid : ℕ) (s : BookingStatus) (b : Booking)
    (hf : db.bookings.find? (fun x => x.id == bid) = some b)
    (hp : b.payment_status ≠ PaymentStatus.paid) :
    (mark_paid (set_booking_status db bid s) bid).ledger = db.ledger ++
      [⟨bid, caregiver_user_id db b.caregiver, Direction.credit, b.caregiver_earnings⟩]
    ∧ ∃ b', (mark_paid (set_booking_status db bid s) bid).bookings.find?
        (fun x => x.id == bid) = some b'
        ∧ b'.payment_status = PaymentStatus.paid ∧ b'.status = s := by
  have hf2 : (set_booking_status db bid s).bookings.find? (fun x => x.id == bid)
      = some { b with status := s } := find?_setstatus db.bookings bid s b hf
  have he := mark_paid_eq (set_booking_status db bid s) bid { b with status := s } hf2 hp
  refine ⟨by rw [he]; rfl,
    ⟨{ b with status := s, payment_status := PaymentStatus.paid }, ?_, rfl, rfl⟩⟩
  rw [he]
  exact find?_mark (set_booking_status db bid s).bookings bid { b with status := s } hf2

/-- Witness for C10: a rejected copy of `sample_booking` is still marked paid
and still credits user 20 with 25.50. -/
theorem mark_paid_ignores_status_witness :
    (mark_paid (set_booking_status { sample_db with bookings := [sample_booking] } 1
        BookingStatus.rejected) 1).ledger = [⟨1, 20, Direction.credit, 2550⟩]
    ∧ ∃ b', (mark_paid (set_booking_status { sample_db with bookings := [sample_booking] } 1
        BookingStatus.rejected) 1).bookings.find? (fun x => x.id == 1) = some b'
        ∧ b'.payment_status = PaymentStatus.paid ∧ b'.status = BookingStatus.rejected := by
  have h := mark_paid_ignores_status { sample_db with bookings := [sample_booking] } 1
    BookingStatus.rejected sample_booking (by decide) (by decide)
  exact ⟨by rw [h.1]; decide, h.2⟩

lemma create_booking_error_db (db : DB) (user pet caregiver stc start dur nid : ℕ) :
    ∀ e, (create_booking db user pet caregiver stc start dur nid).1 = Except.error e →
      (create_booking db user pet caregiver stc start dur nid).2 = db := by
  intro e
  simp only [create_booking]
  repeat' split
  all_goals intro h
  all_goals first
  | rfl
  | simp at h

lemma create_booking_ok_fields (db : DB) (user pet caregiver stc start dur nid : ℕ) :
    ∀ b, (create_booking db user pet caregiver stc start dur nid).1 = Except.ok b →
      b.end_datetime = start + dur
      ∧ b.status = BookingStatus.pending
      ∧ b.payment_status = PaymentStatus.pending
      ∧ (∃ cs, db.caregiver_services.find?
            (fun cs => cs.caregiver == caregiver && cs.service_type == stc && cs.is_active)
            = some cs
          ∧ b.price_subtotal = cs.price_per_unit)
      ∧ (b.platform_fee, b.caregiver_earnings)
          = compute_commission db.fee_num db.fee_den b.price_subtotal
      ∧ (create_booking db user pet caregiver stc start dur nid).2
          = { db with bookings := db.bookings ++ [b] } := by
  intro b
  simp only [create_booking]
  repeat' split
  all_goals intro h
  all_goals first
  | (simp at h
     done)
  | (have hb := Except.ok.inj h
     cases hb
     exact ⟨rfl, rfl, rfl, ⟨_, by assumption, rfl⟩, rfl, rfl⟩)

lemma create_booking_ok_iff (db : DB) (user pet caregiver stc start dur nid : ℕ) :
    (∃ b, (create_booking db user pet caregiver stc start dur nid).1 = Except.ok b) ↔
      (user ∈ db.owners
        ∧ (∃ p, (db.pets.filter (fun p => p.owner == user)).find? (fun p => p.id == pet)
            = some p)
        ∧ (∃ c, db.caregivers.find? (fun c => c.id == caregiver) = some c)
        ∧ (∃ st, db.service_types.find? (fun st => st.code == stc) = some st
            ∧ dur ≤ st.base_duration_minutes * 4)
        ∧ (∃ cs, db.caregiver_services.find?
            (fun cs => cs.caregiver == caregiver && cs.service_type == stc && cs.is_active)
            = some cs)
        ∧ db.now ≤ start
        ∧ is_caregiver_available db caregiver start (start + dur) = true) := by
  by_cases ho : user ∈ db.owners
  case neg => simp [create_booking, ho]
  cases hpet : (db.pets.filter (fun p => p.owner == user)).find? (fun p => p.id == pet) with
  | none =>
    apply iff_of_false
    · rintro ⟨b, hb⟩
      simp [create_booking, ho, hpet] at hb
    · rintro ⟨-, ⟨p, hp⟩, -, -, -, -, -⟩
      exact Option.noConfusion hp
  | some p0 =>
  cases hcg : db.caregivers.find? (fun c => c.id == caregiver) with
  | none =>
    apply iff_of_false
    · rintro ⟨b, hb⟩
      simp [create_booking, ho, hpet, hcg] at hb
    · rintro ⟨-, -, ⟨c, hc⟩, -, -, -, -⟩
      exact Option.noConfusion hc
  | some c0 =>
  cases hst : db.service_types.find? (fun st => st.code == stc) with
  | none =>
    apply iff_of_false
    · rintro ⟨b, hb⟩
      simp [create_booking, ho, hpet, hcg, hst] at hb
    · rintro ⟨-, -, -, ⟨st, hs, -⟩, -, -, -⟩
      exact Option.noConfusion hs
  | some st0 =>
  cases hcs : db.caregiver_services.find?
      (fun cs => cs.caregiver == caregiver && cs.service_type == stc && cs.is_active) with
  | none =>
    apply iff_of_false
    · rintro ⟨b, hb⟩
      simp [create_booking, ho, hpet, hcg, hst, hcs] at hb
    · rintro ⟨-, -, -, -, ⟨cs, hc⟩, -, -⟩
      exact Option.noConfusion hc
  | some cs0 =>
  by_cases hpast : start < db.now
  · apply iff_of_false
    · rintro ⟨b, hb⟩
      simp [create_booking, ho, hpet, hcg, hst, hcs, hpast] at hb
    · rintro ⟨-, -, -, -, -, h6, -⟩
      omega
  · by_cases hdur : st0.base_duration_minutes * 4 < dur
    · apply iff_of_false
      · rintro ⟨b, hb⟩
        simp [create_booking, ho, hpet, hcg, hst, hcs, hpast, hdur] at hb
      · rintro ⟨-, -, -, ⟨st, hs, hle⟩, -, -, -⟩
        cases hs
        omega
    · by_cases havail : is_caregiver_available db caregiver start (start + dur) = true
      · apply iff_of_true
        · have hres : (create_booking db user pet caregiver stc start dur nid).1
              = Except.ok
                  { id := nid, owner := user, caregiver := caregiver, pet := pet,
                    service_type := stc, start_datetime := start,
                    end_datetime := start + dur, duration_minutes := dur,
                    status := BookingStatus.pending,
                    payment_status := PaymentStatus.pending,
                    price_subtotal := cs0.price_per_unit,
                    platform_fee :=
                      (compute_commission db.fee_num db.fee_den cs0.price_per_unit).1,
                    caregiver_earnings :=
                      (compute_commission db.fee_num db.fee_den cs0.price_per_unit).2 } := by
            simp [create_booking, ho, hpet, hcg, hst, hcs, hpast, hdur, havail]
          exact ⟨_, hres⟩
        · exact ⟨ho, ⟨p0, rfl⟩, ⟨c0, rfl⟩, ⟨st0, rfl, by omega⟩, ⟨cs0, rfl⟩,
            by omega, havail⟩
      · apply iff_of_false
        · rintro ⟨b, hb⟩
          simp [create_booking, ho, hpet, hcg, hst, hcs, hpast, hdur, havail] at hb
        · rintro ⟨-, -, -, -, -, -, h7⟩
          exact havail h7

/-- C4: booking creation fails with a ValidationError when a referenced
entity (the requesting owner's profile, the pet among the owner's pets, the
caregiver, the service type, the active caregiver-service offering) is
missing, when the start is in the past, when the duration exceeds 4× the
service type's base duration, or when the caregiver is unavailable on
`[start, start+duration)` — and then the state is unchanged (no booking row,
no ledger entry).  On success the persisted booking has
`end = start + duration`, status `pending`, payment `pending`, the
caregiver's active price as subtotal, and the commission split of that
price. -/
theorem create_booking_spec (db : DB) (user pet caregiver stc start dur nid : ℕ) :
    (∀ e, (create_booking db user pet caregiver stc start dur nid).1 = Except.error e →
      (create_booking db user pet caregiver stc start dur nid).2 = db)
    ∧ (∀ b, (create_booking db user pet caregiver stc start dur nid).1 = Except.ok b →
      b.end_datetime = start + dur
      ∧ b.status = BookingStatus.pending
      ∧ b.payment_status = PaymentStatus.pending
      ∧ (∃ cs, db.caregiver_services.find?
            (fun cs => cs.caregiver == caregiver && cs.service_type == stc && cs.is_active)
            = some cs
          ∧ b.price_subtotal = cs.price_per_unit)
      ∧ (b.platform_fee, b.caregiver_earnings)
          = compute_commission db.fee_num db.fee_den b.price_subtotal
      ∧ (create_booking db user pet caregiver stc start dur nid).2
          = { db with bookings := db.bookings ++ [b] })
    ∧ ((∃ b, (create_booking db user pet caregiver stc start dur nid).1 = Except.ok b) ↔
      (user ∈ db.owners
        ∧ (∃ p, (db.pets.filter (fun p => p.owner == user)).find? (fun p => p.id == pet)
            = some p)
        ∧ (∃ c, db.caregivers.find? (fun c => c.id == caregiver) = some c)
        ∧ (∃ st, db.service_types.find? (fun st => st.code == stc) = some st
            ∧ dur ≤ st.base_duration_minutes * 4)
        ∧ (∃ cs, db.caregiver_services.find?
            (fun cs => cs.caregiver == caregiver && cs.service_type == stc && cs.is_active)
            = some cs)
        ∧ db.now ≤ start
        ∧ is_caregiver_available db caregiver start (start + dur) = true)) :=
  ⟨create_booking_error_db db user pet caregiver stc start dur nid,
   create_booking_ok_fields db user pet caregiver stc start dur nid,
   create_booking_ok_iff db user pet caregiver stc start dur nid⟩

/-- Witness for C4: in `sample_db`, user 1 booking pet 3 with caregiver 2 for
service 4 at minute 10680 for 60 minutes succeeds; the booking it persists is
pending/payment-pending with `end = 10740` and the 30.00 price split
450 / 2550 cents. -/
theorem create_booking_spec_witness :
    (create_booking sample_db 1 3 2 4 10680 60 99).1
      = Except.ok
          { id := 99, owner := 1, caregiver := 2, pet := 3, service_type := 4,
            start_datetime := 10680, end_datetime := 10740, duration_minutes := 60,
            status := BookingStatus.pending, payment_status := PaymentStatus.pending,
            price_subtotal := 3000, platform_fee := 450, caregiver_earnings := 2550 }
    ∧ (∃ b, (create_booking sample_db 1 3 2 4 10680 60 99).1 = Except.ok b)
    ∧ (∀ b, (create_booking sample_db 1 3 2 4 10680 60 99).1 = Except.ok b →
        b.end_datetime = 10680 + 60 ∧ b.status = BookingStatus.pending
        ∧ b.payment_status = PaymentStatus.pending) := by
  refine ⟨by decide, (create_booking_spec sample_db 1 3 2 4 10680 60 99).2.2.mpr
    ⟨by decide, ⟨⟨3, 1⟩, by decide⟩, ⟨⟨2, 20, 0, 0⟩, by decide⟩,
     ⟨⟨4, 60⟩, by decide, by decide⟩, ⟨⟨2, 4, 3000, true⟩, by decide⟩,
     by decide, by decide⟩, fun b hb => ?_⟩
  have h := (create_booking_spec sample_db 1 3 2 4 10680 60 99).2.1 b hb
  exact ⟨h.1, h.2.1, h.2.2.1⟩

/-- C6: the money invariant `price_subtotal = platform_fee +
caregiver_earnings` holds for every booking at creation, and no core
operation (status change, mark_paid, review creation, rating recompute)
mutates the three money fields of any booking. -/
theorem money_invariant :
    (∀ db user pet caregiver stc start dur nid b,
      (create_booking db user pet caregiver stc start dur nid).1 = Except.ok b →
        b.platform_fee + b.caregiver_earnings = b.price_subtotal)
    ∧ (∀ b s, money_fields (change_status b s).2 = money_fields b)
    ∧ (∀ db bid, (mark_paid db bid).bookings.map money_fields
        = db.bookings.map money_fields)
    ∧ (∀ db booking author rating,
        (create_review db booking author rating).2.bookings = db.bookings)
    ∧ (∀ db cid, (recalc_ratings db cid).bookings = db.bookings) := by
  refine ⟨?_, ?_, ?_, ?_, fun db cid => rfl⟩
  · intro db user pet caregiver stc start dur nid b hb
    obtain ⟨-, -, -, -, hc, -⟩ := create_booking_ok_fields db user pet caregiver stc
      start dur nid b hb
    have h1 : b.platform_fee
        = (compute_commission db.fee_num db.fee_den b.price_subtotal).1 :=
      congrArg Prod.fst hc
    have h2 : b.caregiver_earnings
        = (compute_commission db.fee_num db.fee_den b.price_subtotal).2 :=
      congrArg Prod.snd hc
    rw [h1, h2]
    simp only [compute_commission]
    omega
  · intro b s
    unfold change_status
    split <;> rfl
  · intro db bid
    cases hf : db.bookings.find? (fun x => x.id == bid) with
    | none => rw [mark_paid_nofind db bid hf]
    | some b =>
      by_cases hp : b.payment_status = PaymentStatus.paid
      · rw [mark_paid_noop db bid b hf hp]
      · rw [mark_paid_eq db bid b hf hp]
        show (db.bookings.map fun x =>
            if x.id == bid then { x with payment_status := PaymentStatus.paid } else x).map
              money_fields = db.bookings.map money_fields
        rw [List.map_map]
        congr 1
        funext x
        simp only [Function.comp]
        split <;> rfl
  · intro db booking author rating
    unfold create_review
    repeat' split
    all_goals rfl

/-- Witness for C6: the booking persisted in `create_booking_spec_witness`'s
scenario satisfies the split invariant `450 + 2550 = 3000`. -/
theorem money_invariant_witness :
    ∃ b, (create_booking sample_db 1 3 2 4 10680 60 99).1 = Except.ok b
      ∧ b.platform_fee + b.caregiver_earnings = b.price_subtotal := by
  have hres : (create_booking sample_db 1 3 2 4 10680 60 99).1
      = Except.ok
          { id := 99, owner := 1, caregiver := 2, pet := 3, service_type := 4,
            start_datetime := 10680, end_datetime := 10740, duration_minutes := 60,
            status := BookingStatus.pending, payment_status := PaymentStatus.pending,
            price_subtotal := 3000, platform_fee := 450, caregiver_earnings := 2550 } := by
    decide
  exact ⟨_, hres, money_invariant.1 sample_db 1 3 2 4 10680 60 99 _ hres⟩

lemma recalc_ratings_caregivers (db : DB) (cid : ℕ) :
    (recalc_ratings db cid).caregivers = db.caregivers.map
      (fun c =>
        if c.id == cid then
          { c with rating_average := recomputed_average (ratings_of db cid),
                   rating_count := (ratings_of db cid).length }
        else c) := by
  show db.caregivers.map _ = db.caregivers.map _
  congr 1
  funext c
  by_cases hc : (c.id == cid) = true
  · rw [if_pos hc, if_pos hc]
    unfold recomputed_average ratings_of
    rw [List.length_map]
  · rw [if_neg hc, if_neg hc]

/-- A state where caregiver 2 has 40 reviews over distinct bookings — 27 of
rating 3 and 13 of rating 2 — summing to 107, so the exact mean is 2.675. -/
def tie_db : DB :=
  { sample_db with
    caregivers := [{ id := 2, user := 20, rating_average := 0, rating_count := 0 }],
    reviews := (List.range 40).map
      (fun i => { booking := i, author := 10, target_caregiver := 2,
                  rating := if i < 27 then 3 else 2 }) }

/-- C7 is false on the code: with the 40 reviews of `tie_db` (sum 107, exact
mean 2.675 — not binary-representable, nearest double 2.67499999999999982…),
`recalc_ratings` stores 2.67 although the mean rounded to 2 decimal places
is 2.68; the count is still exact. -/
theorem recalc_ratings_float_tie :
    (ratings_of tie_db 2).sum = 107 ∧ (ratings_of tie_db 2).length = 40
    ∧ rounded_mean (ratings_of tie_db 2) = 268
    ∧ ∃ c ∈ (recalc_ratings tie_db 2).caregivers,
        c.id = 2 ∧ c.rating_average = 267 ∧ c.rating_count = 40
        ∧ c.rating_average ≠ rounded_mean (ratings_of tie_db 2) := by
  decide

/-- C7 amended: `recalc_ratings` sets `rating_count` to the exact count of
the reviews targeting the caregiver and `rating_average` to the 2-decimal
half-even quantization of the binary64 float of their mean (`0.00` with no
reviews) — which equals the exactly rounded mean except at decimal ties that
are not binary-representable.  Concretely (hundredths): `[] ↦ 0.00`,
`[4, 5, 3] ↦ 4.00` with count 3, `[4, 5, 3, 5] ↦ 4.25`, but the 40 ratings
of `tie_db` (exact mean 2.675) yield 2.67. -/
theorem recalc_ratings_amended :
    (∀ db cid, (recalc_ratings db cid).caregivers = db.caregivers.map
      (fun c =>
        if c.id == cid then
          { c with rating_average := recomputed_average (ratings_of db cid),
                   rating_count := (ratings_of db cid).length }
        else c))
    ∧ recomputed_average [] = 0
    ∧ recomputed_average [4, 5, 3] = 400 ∧ ([4, 5, 3] : List ℕ).length = 3
    ∧ recomputed_average [4, 5, 3, 5] = 425
    ∧ recomputed_average (ratings_of tie_db 2) = 267 :=
  ⟨recalc_ratings_caregivers, by decide, by decide, by decide, by decide, by decide⟩

lemma review_any_iff (db : DB) (booking : ℕ) :
    (db.reviews.any (fun r => r.booking == booking) = true)
      ↔ ∃ r ∈ db.reviews, r.booking = booking := by
  simp [List.any_eq_true]

/-- C8: a review can be created only for a booking in status `completed` that
has no review yet; a review on a pending or accepted booking fails with the
not-completed ValidationError, a second review on a completed booking fails
with the duplicate ValidationError, and on every failure the state is
unchanged (no review persisted, no rating recompute). -/
theorem create_review_spec (db : DB) (booking author rating : ℕ) (b : Booking)
    (hf : db.bookings.find? (fun x => x.id == booking) = some b) :
    ((∃ u, (create_review db booking author rating).1 = Except.ok u) ↔
      (b.status = BookingStatus.completed ∧ ¬ ∃ r ∈ db.reviews, r.booking = booking))
    ∧ (b.status = BookingStatus.pending ∨ b.status = BookingStatus.accepted →
        create_review db booking author rating
          = (Except.error (MError.validation ValidationReason.reviewNotCompleted), db))
    ∧ (b.status = BookingStatus.completed → (∃ r ∈ db.reviews, r.booking = booking) →
        create_review db booking author rating
          = (Except.error (MError.validation ValidationReason.reviewAlreadyExists), db))
    ∧ (∀ e, (create_review db booking author rating).1 = Except.error e →
        (create_review db booking author rating).2 = db) := by
  simp only [create_review, hf]
  by_cases hst : b.status = BookingStatus.completed
  · rw [if_neg (not_not_intro hst)]
    by_cases hex : ∃ r ∈ db.reviews, r.booking = booking
    · rw [if_pos ((review_any_iff db booking).mpr hex)]
      refine ⟨iff_of_false ?_ ?_, ?_, fun _ _ => rfl, fun e _ => rfl⟩
      · rintro ⟨u, hu⟩
        exact Except.noConfusion hu
      · rintro ⟨-, hnex⟩
        exact hnex hex
      · rintro (h | h) <;> exact BookingStatus.noConfusion (h.symm.trans hst)
    · rw [if_neg (fun hc => hex ((review_any_iff db booking).mp hc))]
      refine ⟨iff_of_true ⟨(), rfl⟩ ⟨hst, hex⟩, ?_, fun _ hex2 => absurd hex2 hex,
        fun e he => Except.noConfusion he⟩
      rintro (h | h) <;> exact BookingStatus.noConfusion (h.symm.trans hst)
  · rw [if_pos hst]
    refine ⟨iff_of_false ?_ ?_, fun _ => rfl, fun hc => absurd hc hst, fun e _ => rfl⟩
    · rintro ⟨u, hu⟩
      exact Except.noConfusion hu
    · rintro ⟨hc, -⟩
      exact hst hc

/-- A state with one completed copy of `sample_booking` and no reviews. -/
def sample_db_completed : DB :=
  { sample_db with bookings := [{ sample_booking with status := BookingStatus.completed }] }

/-- Witness for C8: on the completed booking of `sample_db_completed` the
review is accepted; on the same booking while still pending it is rejected
with the not-completed error, the state untouched. -/
theorem create_review_spec_witness :
    (∃ u, (create_review sample_db_completed 1 10 5).1 = Except.ok u)
    ∧ create_review { sample_db with bookings := [sample_booking] } 1 10 5
        = (Except.error (MError.validation ValidationReason.reviewNotCompleted),
           { sample_db with bookings := [sample_booking] }) := by
  refine ⟨(create_review_spec sample_db_completed 1 10 5
      { sample_booking with status := BookingStatus.completed } (by decide)).1.mpr
      ⟨rfl, by decide⟩,
    (create_review_spec { sample_db with bookings := [sample_booking] } 1 10 5
      sample_booking (by decide)).2.1 (Or.inl rfl)⟩

/-- A consistent state: caregiver 2 has one review of rating 4 and the cached
aggregates 4.00 / 1. -/
def drift_db : DB :=
  { sample_db with
    caregivers := [{ id := 2, user := 20, rating_average := 400, rating_count := 1 }],
    reviews := [{ booking := 1, author := 10, target_caregiver := 2, rating := 4 }] }

/-- C9 is false on the code: updating the existing review's rating from 4 to
2 through `Review.save` (an update, `is_new = false` — the path a review
modification takes) does not recompute the aggregates: the stored average
stays 4.00 although the rounded mean of the reviews now targeting caregiver
2 is 2.00. -/
theorem review_update_drifts :
    ∃ c ∈ (review_save drift_db
        { booking := 1, author := 10, target_caregiver := 2, rating := 2 }
        false).caregivers,
      c.id = 2 ∧ c.rating_average = 400
      ∧ rounded_mean (ratings_of (review_save drift_db
          { booking := 1, author := 10, target_caregiver := 2, rating := 2 } false) 2)
          = 200
      ∧ c.rating_average ≠ rounded_mean (ratings_of (review_save drift_db
          { booking := 1, author := 10, target_caregiver := 2, rating := 2 } false) 2) := by
  decide

/-- C9 amended: at every successful review creation the aggregates are
recomputed — the count is then the exact number of reviews targeting the
caregiver and the average is the code's recompute of them (the 2-decimal
quantization of the float-coerced mean, which is the exactly rounded mean
away from binary-unrepresentable decimal ties); but a review update
(`Review.save` with `is_new = false`) leaves every caregiver row untouched,
so after an update the cached aggregates may no longer reflect the current
reviews. -/
theorem review_aggregates_amended :
    (∀ db booking author rating b,
      db.bookings.find? (fun x => x.id == booking) = some b →
      (∃ u, (create_review db booking author rating).1 = Except.ok u) →
      ∀ c ∈ ((create_review db booking author rating).2).caregivers,
        c.id = b.caregiver →
          c.rating_average = recomputed_average
              (ratings_of (create_review db booking author rating).2 b.caregiver)
          ∧ c.rating_count
              = (ratings_of (create_review db booking author rating).2 b.caregiver).length)
    ∧ (∀ db r, (review_save db r false).caregivers = db.caregivers) := by
  refine ⟨?_, fun db r => rfl⟩
  intro db booking author rating b hf hok c hc hcid
  obtain ⟨u, hu⟩ := hok
  have hpost : (create_review db booking author rating).2
      = recalc_ratings
          { db with reviews := db.reviews ++
              [⟨booking, author, b.caregiver, rating⟩] } b.caregiver := by
    simp only [create_review, hf] at hu ⊢
    by_cases h1 : b.status ≠ BookingStatus.completed
    · rw [if_pos h1] at hu
      exact Except.noConfusion hu
    · rw [if_neg h1] at hu ⊢
      by_cases h2 : db.reviews.any (fun r => r.booking == booking) = true
      · rw [if_pos h2] at hu
        exact Except.noConfusion hu
      · rw [if_neg h2]
        rfl
  rw [hpost] at hc ⊢
  rw [recalc_ratings_caregivers] at hc
  obtain ⟨c0, hc0mem, hc0⟩ := List.mem_map.mp hc
  by_cases h : (c0.id == b.caregiver) = true
  · rw [if_pos h] at hc0
    subst hc0
    exact ⟨rfl, rfl⟩
  · rw [if_neg h] at hc0
    subst hc0
    exact absurd hcid (by simpa using h)

/-- Witness for the amended C9: after the successful review (rating 5) of
`create_review_spec_witness`'s scenario, caregiver 2's cached aggregates
equal the recomputed average (5.00) and count (1) of the reviews targeting
it. -/
theorem review_aggregates_amended_witness :
    (sample_db_completed.bookings.find? (fun x => x.id == 1)
      = some { sample_booking with status := BookingStatus.completed })
    ∧ (∃ u, (create_review sample_db_completed 1 10 5).1 = Except.ok u)
    ∧ ∀ c ∈ (create_review sample_db_completed 1 10 5).2.caregivers,
        c.id = 2 →
          c.rating_average
              = recomputed_average (ratings_of (create_review sample_db_completed 1 10 5).2 2)
          ∧ c.rating_count
              = (ratings_of (create_review sample_db_completed 1 10 5).2 2).length := by
  refine ⟨by decide, ⟨(), by decide⟩, fun c hc hcid => ?_⟩
  exact review_aggregates_amended.1 sample_db_completed 1 10 5
    { sample_booking with status := BookingStatus.completed } (by decide)
    ⟨(), by decide⟩ c hc hcid

end Dogwalker
